import Mathlib

/-!
Verification of the WalkSafe route-safety scoring pipeline.

The definitions below are a shallow embedding of the scoring pipeline:

* the server side (`classify_routes` and its helpers) follows the Python
  worker script embedded in `api/index.js`: a reference timestamp is read
  once per request, every route point is turned into a feature vector
  (latitude, longitude, month, hour, minute), the pretrained scaler and
  classifier are modelled together as one opaque per-point function
  `predict`, per-point indicators are summed and divided by ten times the
  point count, and the result is rounded to four decimal places the way a
  Python format string rounds (nearest, ties to even); a route with no
  points makes the division throw, the inner handler re-raises, and the
  whole batch returns an error value instead of scores;
* the client side (`safetyStatus`, `normalizedScore`, `clientScore`,
  `sortedRoutes`, `routesWithLabels`) follows `handleRoutesFound` in the
  extension popup and the web page: scores are bucketed, normalized and
  clamped for display, routes are sorted ascending by raw score with a
  stable sort (the ECMAScript contract for the array sort used in the
  source), and relative labels are assigned in one left-to-right pass
  carrying the previous score, with tolerance 1/1000.

Floating-point numbers are modelled as rationals.
-/

/-- A geographic point as received by the API: a latitude and a longitude. -/
structure GeoPoint where
  lat : ℚ
  lng : ℚ
deriving DecidableEq, Repr

/-- The reference timestamp captured once per request by the worker script
(`now = datetime.now()`): year, month and day from the date part, hour and
minute from the time part. -/
structure Timestamp where
  year : ℕ
  month : ℕ
  day : ℕ
  hour : ℕ
  minute : ℕ
deriving DecidableEq, Repr

/-- One row of the feature matrix built by the worker script: columns
0 and 1 are the point's latitude and longitude, columns 2, 3 and 4 are the
month, hour and minute of the shared reference timestamp (the year and day
columns are computed and then dropped in the source). -/
structure FeatureVector where
  lat : ℚ
  lng : ℚ
  month : ℕ
  hour : ℕ
  minute : ℕ
deriving DecidableEq, Repr

/-- Builds the feature row for one point from the shared timestamp. -/
def buildFeature (ts : Timestamp) (p : GeoPoint) : FeatureVector :=
  ⟨p.lat, p.lng, ts.month, ts.hour, ts.minute⟩

/-- The full feature matrix of a request: one row list per route, one row
per point, all rows using the same reference timestamp. -/
def featureMatrix (ts : Timestamp) (routes : List (List GeoPoint)) :
    List (List FeatureVector) :=
  routes.map (fun route => route.map (buildFeature ts))

/-- Rounds a rational to the nearest integer, ties to the even integer.
This is how a Python format string with a fixed number of decimals rounds
the digit it keeps. -/
def roundHalfEven (y : ℚ) : ℤ :=
  if y - ⌊y⌋ < 1 / 2 then ⌊y⌋
  else if 1 / 2 < y - ⌊y⌋ then ⌊y⌋ + 1
  else if ⌊y⌋ % 2 = 0 then ⌊y⌋ else ⌊y⌋ + 1

/-- Fixed decimal rounding to four decimal digits, modelling
`float(f"{score:.4f}")` in the worker script. -/
def round4 (x : ℚ) : ℚ :=
  (roundHalfEven (x * 10000) : ℚ) / 10000

/-- Scores one route, following the per-route body of `classify_routes` in
the worker script: predict an indicator per point, sum them, divide by ten
times the point count, and round to four decimals. A route with zero
points makes the division by `div = 0` raise, which the source re-raises. -/
def scoreRoute (predict : FeatureVector → ℚ) (ts : Timestamp)
    (route : List GeoPoint) : Except String ℚ :=
  let y_pred := (route.map (buildFeature ts)).map predict
  let sum_val : ℚ := y_pred.sum
  let div : ℚ := (y_pred.length : ℚ) * 10
  if div = 0 then Except.error "float division by zero"
  else Except.ok (round4 (sum_val / div))

/-- Processes the routes of a batch in order, appending each score to the
results list; the first per-route exception is re-raised and stops the
loop, exactly as the `raise inner_error` in the source. -/
def processRoutes (predict : FeatureVector → ℚ) (ts : Timestamp) :
    List (List GeoPoint) → Except String (List ℚ)
  | [] => Except.ok []
  | route :: rest =>
    match scoreRoute predict ts route with
    | Except.error e => Except.error e
    | Except.ok s =>
      match processRoutes predict ts rest with
      | Except.error e => Except.error e
      | Except.ok results => Except.ok (s :: results)

/-- The JSON value printed by the worker script: a single number when the
results list has exactly one entry, otherwise an array of numbers; on an
exception, an error object. -/
inductive ClassifyOutput where
  | single : ℚ → ClassifyOutput
  | multiple : List ℚ → ClassifyOutput
  | error : String → ClassifyOutput
deriving DecidableEq, Repr

/-- The whole worker script run for one request: score every route with the
shared timestamp, then match the Flask behavior by returning a single value
for a one-route batch; any exception turns into an error object. -/
def classify_routes (predict : FeatureVector → ℚ) (ts : Timestamp)
    (routes : List (List GeoPoint)) : ClassifyOutput :=
  match processRoutes predict ts routes with
  | Except.error e => ClassifyOutput.error e
  | Except.ok results =>
    if results.length = 1 then ClassifyOutput.single (results.getD 0 0)
    else ClassifyOutput.multiple results

/-- The safety bucket assigned by `handleRoutesFound` on the client. -/
inductive Status where
  | safe
  | moderate
  | unsafe_
deriving DecidableEq, Repr

/-- Status bucketing from `handleRoutesFound`: at most 0.3 is safe, then at
most 1.0 is moderate, above that is unsafe. -/
def safetyStatus (score : ℚ) : Status :=
  if score ≤ 3 / 10 then Status.safe
  else if score ≤ 1 then Status.moderate
  else Status.unsafe_

/-- Display normalization from `handleRoutesFound`:
`Math.max(0, Math.min(100, 100 - (score / 9 * 100))) / 100`. -/
def normalizedScore (score : ℚ) : ℚ :=
  max 0 (min 100 (100 - score / 9 * 100)) / 100

/-- The score the client assigns to the route at a given index from the API
response: the number itself when the response is a single number, the
array entry with a fallback of 0 for a missing or falsy entry, and 0 when
the response is not a number and not an array. -/
def clientScore (safetyScores : ClassifyOutput) (index : ℕ) : ℚ :=
  match safetyScores with
  | ClassifyOutput.single q => q
  | ClassifyOutput.multiple qs => qs.getD index 0
  | ClassifyOutput.error _ => 0

/-- The raw scores attached to the client's n routes, in input order. -/
def assignedScores (safetyScores : ClassifyOutput) (n : ℕ) : List ℚ :=
  (List.range n).map (clientScore safetyScores)

/-- Comparison used by the client sort: ascending raw safety score. -/
def scoreLE (a b : ℕ × ℚ) : Prop :=
  a.2 ≤ b.2

instance : DecidableRel scoreLE := fun a b => inferInstanceAs (Decidable (a.2 ≤ b.2))

instance : IsTotal (ℕ × ℚ) scoreLE := ⟨fun a b => le_total a.2 b.2⟩

instance : IsTrans (ℕ × ℚ) scoreLE := ⟨fun _ _ _ => le_trans⟩

/-- The client's sorted route list, keeping each route's original input
index: a stable ascending sort on raw score, which is the contract of the
array sort with comparator subtraction used in `handleRoutesFound`. -/
def sortedRoutes (scores : List ℚ) : List (ℕ × ℚ) :=
  (scores.enum).insertionSort scoreLE

/-- The relative safety label attached to a sorted route. -/
inductive Label where
  | safestOption
  | saferAlternative
  | leastSafeOption
  | equallySafe
deriving DecidableEq, Repr

/-- The label computed for the route at `index` in the sorted list `all`,
given the running `prevScore` variable and the route's own score, exactly
as the branch structure inside the labelling map of `handleRoutesFound`. -/
def srcLabel (all : List ℚ) (index : ℕ) (prevScore score : ℚ) : Label :=
  if index = 0 then
    if 1 < all.length ∧ |score - all.getD 1 0| < 1 / 1000 then Label.equallySafe
    else Label.safestOption
  else if index = all.length - 1 then
    if |score - prevScore| < 1 / 1000 then Label.equallySafe
    else Label.leastSafeOption
  else
    if |score - prevScore| < 1 / 1000 then Label.equallySafe
    else if |score - all.getD (index + 1) 0| < 1 / 1000 then Label.equallySafe
    else Label.saferAlternative

/-- The labelling pass over a suffix of the sorted score list, carrying the
index and the mutable `prevScore` of the source. -/
def labelsGo (all : List ℚ) : ℕ → ℚ → List ℚ → List Label
  | _, _, [] => []
  | index, prevScore, score :: rest =>
    srcLabel all index prevScore score :: labelsGo all (index + 1) score rest

/-- The labels of the sorted score list, with `prevScore` initialized to -1
as in the source. -/
def routesWithLabels (all : List ℚ) : List Label :=
  labelsGo all 0 (-1) all

/-- Closed form of a route's raw score: the sum of per-point indicators
over ten times the point count, rounded to four decimals. -/
def rawScore (predict : FeatureVector → ℚ) (ts : Timestamp)
    (route : List GeoPoint) : ℚ :=
  round4 (((route.map (buildFeature ts)).map predict).sum /
    ((route.length : ℚ) * 10))

theorem scoreRoute_ok (predict : FeatureVector → ℚ) (ts : Timestamp)
    (route : List GeoPoint) (h : route ≠ []) :
    scoreRoute predict ts route = Except.ok (rawScore predict ts route) := by
  have hlen : ((route.map (buildFeature ts)).map predict).length = route.length := by
    simp
  have hne : ((route.length : ℚ) * 10) ≠ 0 := by
    have : route.length ≠ 0 := fun hc => h (List.length_eq_zero.mp hc)
    positivity
  simp only [scoreRoute, hlen, rawScore]
  rw [if_neg hne]

theorem scoreRoute_empty (predict : FeatureVector → ℚ) (ts : Timestamp) :
    scoreRoute predict ts [] = Except.error "float division by zero" := by
  simp [scoreRoute]

theorem scoreRoute_error_msg (predict : FeatureVector → ℚ) (ts : Timestamp)
    (route : List GeoPoint) (e : String)
    (h : scoreRoute predict ts route = Except.error e) :
    e = "float division by zero" := by
  by_cases hr : route = []
  · rw [hr, scoreRoute_empty] at h
    exact (Except.error.injEq _ _ ▸ congrArg id h :
      ("float division by zero" : String) = e).symm
  · rw [scoreRoute_ok predict ts route hr] at h
    exact absurd h (by simp)

/-- C1. For every route with at least one point, the raw score produced by
the aggregation step equals the sum of the per-point classifier indicators
divided by (number of points times 10), rounded to exactly four decimal
digits with fixed decimal rounding, before it leaves the aggregator. -/
theorem c1_rawScore_formula (predict : FeatureVector → ℚ) (ts : Timestamp)
    (route : List GeoPoint) (h : route ≠ []) :
    scoreRoute predict ts route =
      Except.ok (round4 (((route.map (buildFeature ts)).map predict).sum /
        ((route.length : ℚ) * 10))) :=
  scoreRoute_ok predict ts route h

/-- Witness for C1 at a concrete one-point route with constant indicator 2. -/
theorem c1_rawScore_formula_witness :
    ([(⟨0, 0⟩ : GeoPoint)] ≠ []) ∧
    scoreRoute (fun _ => 2) ⟨2025, 10, 11, 12, 0⟩ [⟨0, 0⟩] =
      Except.ok (round4 ((([(⟨0, 0⟩ : GeoPoint)].map
        (buildFeature ⟨2025, 10, 11, 12, 0⟩)).map (fun _ => 2)).sum /
        (([(⟨0, 0⟩ : GeoPoint)].length : ℚ) * 10))) :=
  ⟨by simp, c1_rawScore_formula (fun _ => 2) ⟨2025, 10, 11, 12, 0⟩ [⟨0, 0⟩] (by simp)⟩

theorem processRoutes_error_of_mem (predict : FeatureVector → ℚ) (ts : Timestamp) :
    ∀ routes : List (List GeoPoint), [] ∈ routes →
      processRoutes predict ts routes = Except.error "float division by zero"
  | route :: rest, h => by
    simp only [processRoutes]
    rcases List.mem_cons.mp h with h1 | h1
    · rw [← h1, scoreRoute_empty]
    · cases hsr : scoreRoute predict ts route with
      | error e => rw [scoreRoute_error_msg predict ts route e hsr]
      | ok s => rw [processRoutes_error_of_mem predict ts rest h1]

/-- C2 counterexample: a batch holding a one-point route followed by a
zero-point route does not get a default score for the failing route; the
division by zero is raised, the inner handler re-raises, and the whole
batch collapses to a single error object, with no score for any route. -/
theorem c2_counterexample :
    classify_routes (fun _ => 0) ⟨2025, 10, 11, 12, 0⟩
        [[⟨0, 0⟩], []] =
      ClassifyOutput.error "float division by zero" := by
  with_unfolding_all decide

/-- C2 amended: for every batch containing a zero-point route, the whole
batch fails — the division by zero is re-raised by the inner handler and
the script returns one error object; no default score is substituted and
the remaining routes produce no result. -/
theorem c2_empty_route_aborts_batch (predict : FeatureVector → ℚ)
    (ts : Timestamp) (routes : List (List GeoPoint)) (h : [] ∈ routes) :
    classify_routes predict ts routes =
      ClassifyOutput.error "float division by zero" := by
  unfold classify_routes
  rw [processRoutes_error_of_mem predict ts routes h]

/-- Witness for the amended C2 at a batch whose first route is empty. -/
theorem c2_empty_route_aborts_batch_witness :
    ([] ∈ [([] : List GeoPoint), [⟨1, 1⟩]]) ∧
    classify_routes (fun _ => 1) ⟨2025, 10, 11, 12, 0⟩ [[], [⟨1, 1⟩]] =
      ClassifyOutput.error "float division by zero" :=
  ⟨by simp, c2_empty_route_aborts_batch (fun _ => 1) ⟨2025, 10, 11, 12, 0⟩
    [[], [⟨1, 1⟩]] (by simp)⟩

theorem processRoutes_ok (predict : FeatureVector → ℚ) (ts : Timestamp) :
    ∀ routes : List (List GeoPoint), (∀ r ∈ routes, r ≠ []) →
      processRoutes predict ts routes = Except.ok (routes.map (rawScore predict ts))
  | [], _ => rfl
  | route :: rest, h => by
    simp only [processRoutes]
    rw [scoreRoute_ok predict ts route (h route (List.mem_cons_self route rest)),
      processRoutes_ok predict ts rest (fun r hr => h r (List.mem_cons_of_mem route hr))]
    simp

/-- C5. For every successfully processed batch of valid (nonempty) routes,
the response is a single number when there is exactly one route, and
otherwise an array of exactly one number per route whose i-th entry is the
raw score of the i-th submitted route, in input order. -/
theorem c5_response_shape (predict : FeatureVector → ℚ) (ts : Timestamp)
    (routes : List (List GeoPoint)) (h : ∀ r ∈ routes, r ≠ []) :
    (routes.length = 1 →
      classify_routes predict ts routes =
        ClassifyOutput.single (rawScore predict ts (routes.getD 0 []))) ∧
    (routes.length ≠ 1 →
      ∃ qs, classify_routes predict ts routes = ClassifyOutput.multiple qs ∧
        qs.length = routes.length ∧
        ∀ i, i < routes.length →
          qs.getD i 0 = rawScore predict ts (routes.getD i [])) := by
  have hp := processRoutes_ok predict ts routes h
  unfold classify_routes
  rw [hp]
  dsimp only
  constructor
  · intro h1
    obtain ⟨r, hr⟩ := List.length_eq_one.mp h1
    subst hr
    simp
  · intro h1
    refine ⟨routes.map (rawScore predict ts), ?_, by simp, ?_⟩
    · rw [if_neg (by simpa using h1)]
    · intro i hi
      rw [List.getD_eq_getElem?_getD, List.getElem?_map,
        List.getElem?_eq_getElem hi, List.getD_eq_getElem?_getD,
        List.getElem?_eq_getElem hi]
      simp

/-- Witness for C5 at a concrete two-route batch with one point each. -/
theorem c5_response_shape_witness :
    (∀ r ∈ [[(⟨0, 0⟩ : GeoPoint)], [⟨1, 1⟩]], r ≠ []) ∧
    ((([[(⟨0, 0⟩ : GeoPoint)], [⟨1, 1⟩]]).length = 1 →
      classify_routes (fun _ => 3) ⟨2025, 10, 11, 12, 0⟩ [[⟨0, 0⟩], [⟨1, 1⟩]] =
        ClassifyOutput.single (rawScore (fun _ => 3) ⟨2025, 10, 11, 12, 0⟩
          (([[(⟨0, 0⟩ : GeoPoint)], [⟨1, 1⟩]]).getD 0 []))) ∧
    (([[(⟨0, 0⟩ : GeoPoint)], [⟨1, 1⟩]]).length ≠ 1 →
      ∃ qs, classify_routes (fun _ => 3) ⟨2025, 10, 11, 12, 0⟩ [[⟨0, 0⟩], [⟨1, 1⟩]] =
          ClassifyOutput.multiple qs ∧
        qs.length = ([[(⟨0, 0⟩ : GeoPoint)], [⟨1, 1⟩]]).length ∧
        ∀ i, i < ([[(⟨0, 0⟩ : GeoPoint)], [⟨1, 1⟩]]).length →
          qs.getD i 0 = rawScore (fun _ => 3) ⟨2025, 10, 11, 12, 0⟩
            (([[(⟨0, 0⟩ : GeoPoint)], [⟨1, 1⟩]]).getD i []))) :=
  ⟨by simp, c5_response_shape (fun _ => 3) ⟨2025, 10, 11, 12, 0⟩
    [[⟨0, 0⟩], [⟨1, 1⟩]] (by simp)⟩

/-- C6. For every score, the safety status is exactly the threshold table:
safe iff the raw score is at most 0.3, moderate iff it is above 0.3 and at
most 1.0, unsafe iff it is above 1.0; in particular 0.3 lands in safe and
1.0 lands in moderate. -/
theorem c6_status_buckets (score : ℚ) :
    (safetyStatus score = Status.safe ↔ score ≤ 3 / 10) ∧
    (safetyStatus score = Status.moderate ↔ 3 / 10 < score ∧ score ≤ 1) ∧
    (safetyStatus score = Status.unsafe_ ↔ 1 < score) := by
  unfold safetyStatus
  split_ifs with h1 h2
  · exact ⟨iff_of_true rfl h1,
      iff_of_false (by simp) (fun hc => absurd hc.1 (not_lt.mpr h1)),
      iff_of_false (by simp) (not_lt.mpr (le_trans h1 (by norm_num)))⟩
  · exact ⟨iff_of_false (by simp) h1,
      iff_of_true rfl ⟨not_le.mp h1, h2⟩,
      iff_of_false (by simp) (not_lt.mpr h2)⟩
  · exact ⟨iff_of_false (by simp) h1,
      iff_of_false (by simp) (fun hc => h2 hc.2),
      iff_of_true rfl (not_le.mp h2)⟩

/-- C7. For every score, the client's normalized display score equals the
clamp of 1 minus a ninth of the raw score into the unit interval, is never
negative and never above 1; a raw score of 0 maps to 1 and a raw score of
9 maps to 0. -/
theorem c7_normalized_clamp :
    (∀ score : ℚ,
      normalizedScore score = max 0 (min 1 (1 - score / 9)) ∧
      0 ≤ normalizedScore score ∧ normalizedScore score ≤ 1) ∧
    normalizedScore 0 = 1 ∧ normalizedScore 9 = 0 := by
  have key : ∀ score : ℚ, normalizedScore score = max 0 (min 1 (1 - score / 9)) := by
    intro score
    unfold normalizedScore
    rw [← max_div_div_right (by norm_num : (0:ℚ) ≤ 100),
      ← min_div_div_right (by norm_num : (0:ℚ) ≤ 100)]
    congr 1
    · norm_num
    congr 1
    · norm_num
    · ring
  refine ⟨fun score => ⟨key score, ?_, ?_⟩, ?_, ?_⟩
  · rw [key score]; exact le_max_left 0 _
  · rw [key score]
    exact max_le (by norm_num) (min_le_left 1 _)
  · rw [key 0]; norm_num
  · rw [key 9]; norm_num

/-- C8. Every feature row of a request's feature matrix carries the month,
hour and minute of the single reference timestamp captured for that
request, so these three fields are identical across all points of all
routes of the request, and only the latitude and longitude come from the
individual point. -/
theorem c8_shared_timestamp (ts : Timestamp) (routes : List (List GeoPoint))
    (row : List FeatureVector) (fv : FeatureVector)
    (hrow : row ∈ featureMatrix ts routes) (hfv : fv ∈ row) :
    fv.month = ts.month ∧ fv.hour = ts.hour ∧ fv.minute = ts.minute ∧
    ∃ route ∈ routes, ∃ p ∈ route, fv = buildFeature ts p := by
  simp only [featureMatrix, List.mem_map] at hrow
  obtain ⟨route, hr, hrw⟩ := hrow
  subst hrw
  simp only [List.mem_map] at hfv
  obtain ⟨p, hp, hpw⟩ := hfv
  subst hpw
  exact ⟨rfl, rfl, rfl, route, hr, p, hp, rfl⟩

/-- Witness for C8 at a one-route, one-point request. -/
theorem c8_shared_timestamp_witness :
    ([buildFeature ⟨2025, 10, 11, 12, 30⟩ ⟨1, 2⟩] ∈
      featureMatrix ⟨2025, 10, 11, 12, 30⟩ [[⟨1, 2⟩]]) ∧
    (buildFeature ⟨2025, 10, 11, 12, 30⟩ ⟨1, 2⟩ ∈
      [buildFeature ⟨2025, 10, 11, 12, 30⟩ ⟨1, 2⟩]) ∧
    ((buildFeature ⟨2025, 10, 11, 12, 30⟩ (⟨1, 2⟩ : GeoPoint)).month =
        (⟨2025, 10, 11, 12, 30⟩ : Timestamp).month ∧
      (buildFeature ⟨2025, 10, 11, 12, 30⟩ (⟨1, 2⟩ : GeoPoint)).hour =
        (⟨2025, 10, 11, 12, 30⟩ : Timestamp).hour ∧
      (buildFeature ⟨2025, 10, 11, 12, 30⟩ (⟨1, 2⟩ : GeoPoint)).minute =
        (⟨2025, 10, 11, 12, 30⟩ : Timestamp).minute ∧
      ∃ route ∈ [[(⟨1, 2⟩ : GeoPoint)]], ∃ p ∈ route,
        buildFeature ⟨2025, 10, 11, 12, 30⟩ ⟨1, 2⟩ = buildFeature ⟨2025, 10, 11, 12, 30⟩ p) :=
  ⟨by simp [featureMatrix], List.mem_singleton.mpr rfl,
    c8_shared_timestamp ⟨2025, 10, 11, 12, 30⟩ [[⟨1, 2⟩]]
      [buildFeature ⟨2025, 10, 11, 12, 30⟩ ⟨1, 2⟩]
      (buildFeature ⟨2025, 10, 11, 12, 30⟩ ⟨1, 2⟩)
      (by simp [featureMatrix]) (List.mem_singleton.mpr rfl)⟩

theorem pair_sublist_of_getElem {α : Type} {l : List α} {i j : ℕ} {a b : α}
    (hij : i < j) (ha : l[i]? = some a) (hb : l[j]? = some b) :
    [a, b].Sublist l := by
  have hia : a ∈ l.take (i + 1) := by
    have h1 : (l.take (i + 1))[i]? = some a := by
      rw [List.getElem?_take, if_pos (Nat.lt_succ_self i)]
      exact ha
    exact List.get?_mem (by rw [List.get?_eq_getElem?]; exact h1)
  have hjb : b ∈ l.drop (i + 1) := by
    have h1 : (l.drop (i + 1))[j - (i + 1)]? = some b := by
      rw [List.getElem?_drop, Nat.add_sub_cancel' (Nat.succ_le_of_lt hij)]
      exact hb
    exact List.get?_mem (by rw [List.get?_eq_getElem?]; exact h1)
  have h2 : List.Sublist ([a] ++ [b]) (l.take (i + 1) ++ l.drop (i + 1)) :=
    List.Sublist.append (List.singleton_sublist.mpr hia) (List.singleton_sublist.mpr hjb)
  rwa [List.take_append_drop] at h2

/-- C4. For every batch of scored routes the ranking step is a stable
ascending sort on raw score: the sorted list is a permutation of the
index-score pairs, its scores are pairwise ascending, two routes with the
same score keep their input order, and the concrete input of the claim
sorts to the routes at original indices 1, 2, 0, 3. -/
theorem c4_stable_sort :
    (∀ scores : List ℚ,
      List.Perm (sortedRoutes scores) scores.enum ∧
      (sortedRoutes scores).Pairwise (fun a b => a.2 ≤ b.2) ∧
      (∀ i j : ℕ, ∀ s : ℚ, i < j → scores[i]? = some s → scores[j]? = some s →
        [(i, s), (j, s)].Sublist (sortedRoutes scores))) ∧
    sortedRoutes [5/10, 2/10, 2/10, 8/10] = [(1, 2/10), (2, 2/10), (0, 5/10), (3, 8/10)] := by
  constructor
  · intro scores
    refine ⟨List.perm_insertionSort scoreLE scores.enum, ?_, ?_⟩
    · exact List.sorted_insertionSort scoreLE scores.enum
    · intro i j s hij hi hj
      have hi2 : scores.enum[i]? = some (i, s) := by
        rw [List.getElem?_enum, hi]; rfl
      have hj2 : scores.enum[j]? = some (j, s) := by
        rw [List.getElem?_enum, hj]; rfl
      exact List.pair_sublist_insertionSort (le_refl s)
        (pair_sublist_of_getElem hij hi2 hj2)
  · with_unfolding_all decide

/-- Witness for C4: the stability clause at a two-route tie. -/
theorem c4_stable_sort_witness :
    (0 < 1 ∧ ([(1:ℚ)/5, 1/5])[0]? = some (1/5) ∧ ([(1:ℚ)/5, 1/5])[1]? = some (1/5)) ∧
    [((0:ℕ), (1:ℚ)/5), (1, 1/5)].Sublist (sortedRoutes [1/5, 1/5]) :=
  ⟨⟨Nat.zero_lt_one, by with_unfolding_all decide, by with_unfolding_all decide⟩,
    (c4_stable_sort.1 [1/5, 1/5]).2.2 0 1 (1/5) Nat.zero_lt_one
      (by with_unfolding_all decide) (by with_unfolding_all decide)⟩

theorem labelsGo_getD_succ (all : List ℚ) (d : Label) :
    ∀ (j : ℕ) (l : List ℚ) (index : ℕ) (prev : ℚ), j + 1 < l.length →
      (labelsGo all index prev l).getD (j + 1) d =
        srcLabel all (index + j + 1) (l.getD j 0) (l.getD (j + 1) 0)
  | 0, [], _, _, h => absurd h (by simp)
  | 0, [_], _, _, h => absurd h (by simp)
  | 0, _ :: s2 :: rest, index, prev, _ => rfl
  | k + 1, [], _, _, h => absurd h (by simp)
  | k + 1, s :: rest, index, prev, h => by
    have hk : k + 1 < rest.length := by
      simpa using Nat.lt_of_succ_lt_succ h
    have key := labelsGo_getD_succ all d k rest (index + 1) s hk
    simp only [labelsGo, List.getD_cons_succ]
    rw [key]
    have harith : index + 1 + k + 1 = index + (k + 1) + 1 := by omega
    rw [harith]

/-- C3. For every sorted batch of scored routes, relative labels follow
the neighbor rule with tolerance 1/1000 on score difference: a single
route gets SafestOption; with more than one route, index 0 gets
SafestOption unless within tolerance of the next score, the last index
gets LeastSafeOption unless within tolerance of the previous score, and
every interior index gets EquallySafe when within tolerance of either
immediate neighbor and SaferAlternative otherwise. -/
theorem c3_relative_labels (scores : List ℚ) (hne : scores ≠ []) :
    (scores.length = 1 → routesWithLabels scores = [Label.safestOption]) ∧
    (1 < scores.length →
      (routesWithLabels scores).getD 0 Label.safestOption =
        (if |scores.getD 0 0 - scores.getD 1 0| < 1 / 1000 then Label.equallySafe
         else Label.safestOption) ∧
      (routesWithLabels scores).getD (scores.length - 1) Label.safestOption =
        (if |scores.getD (scores.length - 1) 0 -
              scores.getD (scores.length - 2) 0| < 1 / 1000
         then Label.equallySafe else Label.leastSafeOption)) ∧
    (∀ j, 0 < j → j < scores.length - 1 →
      (routesWithLabels scores).getD j Label.safestOption =
        (if |scores.getD j 0 - scores.getD (j - 1) 0| < 1 / 1000 ∨
            |scores.getD j 0 - scores.getD (j + 1) 0| < 1 / 1000
         then Label.equallySafe else Label.saferAlternative)) := by
  refine ⟨?_, fun hn => ⟨?_, ?_⟩, ?_⟩
  · intro h1
    obtain ⟨a, rfl⟩ := List.length_eq_one.mp h1
    simp [routesWithLabels, labelsGo, srcLabel]
  · cases scores with
    | nil => exact absurd rfl hne
    | cons s rest =>
      have h0 : (routesWithLabels (s :: rest)).getD 0 Label.safestOption =
          srcLabel (s :: rest) 0 (-1) s := rfl
      rw [h0]
      have hr : 0 < rest.length := by simpa using hn
      simp [srcLabel, hn, hr]
  · have h2 : scores.length - 2 + 1 < scores.length := by omega
    have key := labelsGo_getD_succ scores Label.safestOption
      (scores.length - 2) scores 0 (-1) h2
    have e1 : scores.length - 2 + 1 = scores.length - 1 := by omega
    rw [e1] at key
    have e2 : 0 + (scores.length - 2) + 1 = scores.length - 1 := by omega
    rw [e2] at key
    unfold routesWithLabels
    rw [key]
    unfold srcLabel
    rw [if_neg (by omega : ¬ scores.length - 1 = 0), if_pos rfl]
  · intro j hj0 hjlt
    have h2 : j - 1 + 1 < scores.length := by omega
    have key := labelsGo_getD_succ scores Label.safestOption
      (j - 1) scores 0 (-1) h2
    have e1 : j - 1 + 1 = j := by omega
    rw [e1] at key
    have e2 : 0 + (j - 1) + 1 = j := by omega
    rw [e2] at key
    unfold routesWithLabels
    rw [key]
    unfold srcLabel
    rw [if_neg (by omega : ¬ j = 0), if_neg (by omega : ¬ j = scores.length - 1)]
    split_ifs <;> first | rfl | tauto

/-- Witness for C3 at the three distinct scores of the specification. -/
theorem c3_relative_labels_witness :
    (([(1:ℚ)/10, 1/2, 9/10] : List ℚ) ≠ []) ∧
    ((([(1:ℚ)/10, 1/2, 9/10] : List ℚ).length = 1 →
      routesWithLabels [1/10, 1/2, 9/10] = [Label.safestOption]) ∧
    (1 < ([(1:ℚ)/10, 1/2, 9/10] : List ℚ).length →
      (routesWithLabels [1/10, 1/2, 9/10]).getD 0 Label.safestOption =
        (if |([(1:ℚ)/10, 1/2, 9/10] : List ℚ).getD 0 0 -
              ([(1:ℚ)/10, 1/2, 9/10] : List ℚ).getD 1 0| < 1 / 1000
         then Label.equallySafe else Label.safestOption) ∧
      (routesWithLabels [1/10, 1/2, 9/10]).getD
          (([(1:ℚ)/10, 1/2, 9/10] : List ℚ).length - 1) Label.safestOption =
        (if |([(1:ℚ)/10, 1/2, 9/10] : List ℚ).getD
              (([(1:ℚ)/10, 1/2, 9/10] : List ℚ).length - 1) 0 -
              ([(1:ℚ)/10, 1/2, 9/10] : List ℚ).getD
              (([(1:ℚ)/10, 1/2, 9/10] : List ℚ).length - 2) 0| < 1 / 1000
         then Label.equallySafe else Label.leastSafeOption)) ∧
    (∀ j, 0 < j → j < ([(1:ℚ)/10, 1/2, 9/10] : List ℚ).length - 1 →
      (routesWithLabels [1/10, 1/2, 9/10]).getD j Label.safestOption =
        (if |([(1:ℚ)/10, 1/2, 9/10] : List ℚ).getD j 0 -
              ([(1:ℚ)/10, 1/2, 9/10] : List ℚ).getD (j - 1) 0| < 1 / 1000 ∨
            |([(1:ℚ)/10, 1/2, 9/10] : List ℚ).getD j 0 -
              ([(1:ℚ)/10, 1/2, 9/10] : List ℚ).getD (j + 1) 0| < 1 / 1000
         then Label.equallySafe else Label.saferAlternative))) :=
  ⟨by simp, c3_relative_labels [1/10, 1/2, 9/10] (by simp)⟩

theorem clientScore_eq_getD (qs : List ℚ) (i : ℕ) :
    clientScore (ClassifyOutput.multiple qs) i = qs.getD i 0 := rfl

theorem assignedScores_getElem? (safetyScores : ClassifyOutput) (n i : ℕ)
    (hin : i < n) :
    (assignedScores safetyScores n)[i]? = some (clientScore safetyScores i) := by
  simp only [assignedScores, List.getElem?_map, List.getElem?_range hin,
    Option.map_some']

theorem assignedScores_nonneg (qs : List ℚ) (n : ℕ)
    (hpos : ∀ q ∈ qs, 0 ≤ q) :
    ∀ x ∈ assignedScores (ClassifyOutput.multiple qs) n, 0 ≤ x := by
  intro x hx
  simp only [assignedScores, List.mem_map] at hx
  obtain ⟨j, _, hxe⟩ := hx
  rw [clientScore_eq_getD, List.getD_eq_getElem?_getD] at hxe
  cases hq : qs[j]? with
  | none =>
    rw [hq] at hxe
    exact hxe ▸ le_refl 0
  | some v =>
    rw [hq] at hxe
    exact hxe ▸ hpos v (List.get?_mem (by rw [List.get?_eq_getElem?]; exact hq))

theorem snd_mem_of_mem_enum {α : Type} {l : List α} {x : ℕ × α}
    (h : x ∈ l.enum) : x.2 ∈ l := by
  obtain ⟨i, a⟩ := x
  rw [List.enum_eq_zip_range] at h
  exact (List.of_mem_zip h).2

/-- C10. When the safety API returns an array, a route whose entry is
missing or exactly 0 is assigned raw score 0 by the fallback in the
client's score-assignment step, is therefore classified safe, appears in
the sorted batch, and the sorted batch starts with a zero score (the route
sorts first among nonnegative scores), indistinguishable from a perfect
score of 0. -/
theorem c10_missing_score_defaults_safe (qs : List ℚ) (n i : ℕ) (hin : i < n)
    (hmiss : qs[i]? = none ∨ qs[i]? = some 0)
    (hpos : ∀ q ∈ qs, 0 ≤ q) :
    clientScore (ClassifyOutput.multiple qs) i = 0 ∧
    safetyStatus (clientScore (ClassifyOutput.multiple qs) i) = Status.safe ∧
    ((i, (0 : ℚ)) ∈ sortedRoutes (assignedScores (ClassifyOutput.multiple qs) n)) ∧
    (sortedRoutes (assignedScores (ClassifyOutput.multiple qs) n)).head?.map
      Prod.snd = some 0 := by
  have h0 : clientScore (ClassifyOutput.multiple qs) i = 0 := by
    rw [clientScore_eq_getD, List.getD_eq_getElem?_getD]
    rcases hmiss with h | h <;> rw [h] <;> rfl
  have hmemA : (assignedScores (ClassifyOutput.multiple qs) n)[i]? = some 0 := by
    rw [assignedScores_getElem? _ _ _ hin, h0]
  have hmemE : (assignedScores (ClassifyOutput.multiple qs) n).enum[i]? =
      some (i, (0 : ℚ)) := by
    rw [List.getElem?_enum, hmemA]
    rfl
  have hperm : List.Perm
      (sortedRoutes (assignedScores (ClassifyOutput.multiple qs) n))
      (assignedScores (ClassifyOutput.multiple qs) n).enum :=
    List.perm_insertionSort scoreLE _
  have hmemS : (i, (0 : ℚ)) ∈
      sortedRoutes (assignedScores (ClassifyOutput.multiple qs) n) :=
    hperm.mem_iff.mpr
      (List.get?_mem (by rw [List.get?_eq_getElem?]; exact hmemE))
  have hsorted : List.Sorted scoreLE
      (sortedRoutes (assignedScores (ClassifyOutput.multiple qs) n)) :=
    List.sorted_insertionSort scoreLE _
  refine ⟨h0, ?_, hmemS, ?_⟩
  · rw [h0]
    unfold safetyStatus
    rw [if_pos (by norm_num)]
  · cases hs : sortedRoutes (assignedScores (ClassifyOutput.multiple qs) n) with
    | nil =>
      rw [hs] at hmemS
      exact absurd hmemS (List.not_mem_nil _)
    | cons a t =>
      have hann : 0 ≤ a.2 :=
        assignedScores_nonneg qs n hpos a.2
          (snd_mem_of_mem_enum (hperm.subset (hs ▸ List.mem_cons_self a t)))
      have hale : a.2 ≤ 0 := by
        rw [hs] at hmemS
        rcases List.mem_cons.mp hmemS with he | ht
        · exact le_of_eq (by rw [← he])
        · have hrel : scoreLE a (i, (0 : ℚ)) :=
            List.rel_of_sorted_cons (hs ▸ hsorted) (i, (0 : ℚ)) ht
          exact hrel
      have haz : a.2 = 0 := le_antisymm hale hann
      simp only [List.head?_cons, Option.map_some']
      rw [haz]

/-- Witness for C10: a two-route batch whose second score is missing. -/
theorem c10_missing_score_defaults_safe_witness :
    ((1 : ℕ) < 2 ∧
      (([(7 : ℚ)/10] : List ℚ)[1]? = none ∨ ([(7 : ℚ)/10] : List ℚ)[1]? = some 0) ∧
      (∀ q ∈ ([(7 : ℚ)/10] : List ℚ), 0 ≤ q)) ∧
    (clientScore (ClassifyOutput.multiple [7/10]) 1 = 0 ∧
      safetyStatus (clientScore (ClassifyOutput.multiple [7/10]) 1) = Status.safe ∧
      ((1, (0 : ℚ)) ∈ sortedRoutes (assignedScores (ClassifyOutput.multiple [7/10]) 2)) ∧
      (sortedRoutes (assignedScores (ClassifyOutput.multiple [7/10]) 2)).head?.map
        Prod.snd = some 0) :=
  ⟨⟨Nat.one_lt_two, Or.inl rfl, by
      intro q hq
      rw [List.mem_singleton.mp hq]
      norm_num⟩,
    c10_missing_score_defaults_safe [7/10] 2 1 Nat.one_lt_two (Or.inl rfl) (by
      intro q hq
      rw [List.mem_singleton.mp hq]
      norm_num)⟩
